import Mathlib

/-!
Verification of the multimodal RAG indexing and retrieval pipeline.

The development shallowly embeds the Python modules of the repository:

* `config/settings.py` (the constants used by the pipeline),
* `backend/processing/vector_store.py` (`VectorStoreManager`),
* `backend/processing/pdf_processor.py` (`PDFProcessor`),
* `backend/retrieval/retriever.py` (`MultimodalRetriever`),
* `backend/retrieval/response_generator.py` (`ResponseGenerator`).

Embeddings are modelled as lists of rationals; the FAISS flat index built
from precomputed embeddings is modelled as the insertion-ordered list of
(document, embedding) pairs, and its exact search as ranking by squared
Euclidean distance with ties broken by the smaller insertion id.  Fallible
Python calls (the CLIP embedder, image decoding, document parsing) are
modelled as `Option`- or `Except`-valued function parameters, so a raised
exception corresponds to `none` / `.error`.
-/

namespace MultimodalRag

/-- Embedding vectors (numpy arrays in the source) as lists of rationals. -/
abbrev Vec := List ℚ

/-- Inner product of two vectors. `zipWith` truncates at the shorter list,
which matches numpy only when the lengths agree; theorems that depend on
this carry explicit length hypotheses. -/
def dot (u v : Vec) : ℚ := (List.zipWith (fun a b => a * b) u v).sum

/-- Squared Euclidean distance between two vectors. -/
def sqDist (u v : Vec) : ℚ := (List.zipWith (fun a b => (a - b) ^ 2) u v).sum

/-- settings.DEFAULT_K in config/settings.py: default number of results. -/
def DEFAULT_K : Nat := 5

/-- Output dimensionality of the configured embedding provider
(settings.CLIP_MODEL_NAME = "openai/clip-vit-base-patch32", which produces
512-dimensional vectors). -/
def CLIP_EMBED_DIM : Nat := 512

/-- Metadata the pipeline attaches to a langchain Document: the 0-based page
index, the unit kind ("text" or "image"), and for image units the image
identifier.  The identifier is an `Option` so the Python truthiness test
`metadata.get("image_id")` can be modelled faithfully (`none` models a
missing key). -/
structure DocMeta where
  page : Nat
  type : String
  image_id : Option String
deriving Repr, DecidableEq

/-- A langchain Document: page content plus metadata. -/
structure Document where
  page_content : String
  metadata : DocMeta
deriving Repr, DecidableEq

/-- The FAISS store built by `FAISS.from_embeddings`: the parallel lists of
documents and their precomputed embeddings, in insertion order. -/
abbrev Store := List (Document × Vec)

/-- FAISS.from_embeddings over `[(doc.page_content, emb) ...]` with
`metadatas=[doc.metadata ...]`: stores the documents paired with their
precomputed embeddings in input order. -/
def fromEmbeddings (docs : List Document) (embeddings : List Vec) : Store :=
  List.zip docs embeddings

/-- Pairs every element of a list with its position, starting from `i`
(the insertion ids FAISS assigns to stored vectors). -/
def withIdx {α : Type} : Nat → List α → List (Nat × α)
  | _, [] => []
  | i, a :: l => (i, a) :: withIdx (i + 1) l

/-- Ranking comparison of the exact flat-L2 search for a query `q`:
increasing squared Euclidean distance, ties broken by the smaller
insertion id. -/
def entryLE (q : Vec) (a b : Nat × Document × Vec) : Bool :=
  decide (sqDist q a.2.2 < sqDist q b.2.2) ||
    (decide (sqDist q a.2.2 = sqDist q b.2.2) && decide (a.1 ≤ b.1))

/-- All stored entries ranked for query `q`: nearest first. -/
def rankedEntries (st : Store) (q : Vec) : List (Nat × Document × Vec) :=
  (withIdx 0 st).mergeSort (entryLE q)

/-- langchain `FAISS.similarity_search_by_vector` on an index of precomputed
embeddings: exact nearest-neighbour search returning the `k` nearest stored
documents (fewer when the index holds fewer than `k` vectors: FAISS pads
missing results with id -1 and the wrapper drops those). -/
def similarity_search_by_vector (st : Store) (q : Vec) (k : Nat) : List Document :=
  ((rankedEntries st q).take k).map (fun e => e.2.1)

/-- Python defaulting `k = k or settings.DEFAULT_K`: `None` and `0` are both
falsy, so either selects `DEFAULT_K`. -/
def orDefaultK (k : Option Nat) : Nat :=
  match k with
  | none => DEFAULT_K
  | some n => if n = 0 then DEFAULT_K else n

/-- VectorStoreManager.search_by_vector: raises ValueError when no store has
been built or loaded, otherwise searches with the defaulted `k`. -/
def search_by_vector (vector_store : Option Store) (query_embedding : Vec)
    (k : Option Nat) : Except String (List Document) :=
  match vector_store with
  | none => Except.error "Vector store not initialized"
  | some st => Except.ok (similarity_search_by_vector st query_embedding (orDefaultK k))

/-- VectorStoreManager.create_vector_store: validates that the inputs are
nonempty and of equal length, then builds the new FAISS store and installs it
on the manager.  The result is the new manager state together with the
returned value; a raised ValueError leaves the manager state unchanged. -/
def create_vector_store (vector_store : Option Store) (docs : List Document)
    (embeddings : List Vec) : Option Store × Except String Store :=
  if docs.isEmpty || embeddings.isEmpty then
    (vector_store, Except.error "Documents and embeddings cannot be empty")
  else if docs.length ≠ embeddings.length then
    (vector_store, Except.error "Number of documents must match number of embeddings")
  else
    (some (fromEmbeddings docs embeddings), Except.ok (fromEmbeddings docs embeddings))

/-- VectorStoreManager.save_vector_store: raises ValueError when no store has
been built or loaded; otherwise serializes the current store. -/
def save_vector_store (vector_store : Option Store) : Except String Store :=
  match vector_store with
  | none => Except.error "Vector store not initialized"
  | some st => Except.ok st

/-- Persisted FAISS index as written by `save_local`: the serialized
(document, embedding) pairs. -/
structure PersistedFile where
  pairs : List (Document × Vec)
deriving Repr, DecidableEq

/-- VectorStoreManager.load_vector_store: `FAISS.load_local(path,
embeddings=None)` deserializes the stored pairs into a fresh store.  No
embedding provider is attached (`embeddings=None`) and the loader performs no
dimensionality validation, so any readable file is installed as is.  A loader
failure (unreadable or unparsable file) propagates and leaves the manager
state unchanged. -/
def load_vector_store (vector_store : Option Store)
    (file : Except String PersistedFile) : Option Store × Except String Store :=
  match file with
  | Except.error e => (vector_store, Except.error e)
  | Except.ok f => (some f.pairs, Except.ok f.pairs)

/-- Calls the retriever makes against its collaborators, recorded so that
theorems can state that a code path consulted neither the embedding provider
nor the vector store. -/
inductive ProviderCall where
  | embedTextCall
  | embedImageCall
  | searchCall
deriving Repr, DecidableEq

/-- MultimodalRetriever.retrieve_by_text: defaults `k`, embeds the query text
and searches the vector store.  The call log records the provider and store
interactions. -/
def retrieve_by_text {Q : Type} (embed_text : Q → Vec) (vector_store : Option Store)
    (query : Q) (k : Option Nat) : Except String (List Document) × List ProviderCall :=
  (search_by_vector vector_store (embed_text query) (some (orDefaultK k)),
   [ProviderCall.embedTextCall, ProviderCall.searchCall])

/-- MultimodalRetriever.retrieve_by_image: defaults `k`, embeds the query
image and searches the vector store. -/
def retrieve_by_image {Q : Type} (embed_image : Q → Vec) (vector_store : Option Store)
    (query : Q) (k : Option Nat) : Except String (List Document) × List ProviderCall :=
  (search_by_vector vector_store (embed_image query) (some (orDefaultK k)),
   [ProviderCall.embedImageCall, ProviderCall.searchCall])

/-- MultimodalRetriever.retrieve_multimodal: dispatches on `query_type`;
any value other than "text" or "image" raises ValueError before any
collaborator is consulted. -/
def retrieve_multimodal {Q : Type} (embed_text embed_image : Q → Vec)
    (vector_store : Option Store) (query : Q) (query_type : String) (k : Option Nat) :
    Except String (List Document) × List ProviderCall :=
  if query_type = "text" then retrieve_by_text embed_text vector_store query k
  else if query_type = "image" then retrieve_by_image embed_image vector_store query k
  else (Except.error ("Unsupported query type: " ++ query_type), [])

/-- Python truthiness of `page.get_text().strip()`: true exactly when the
page text contains a character that is not whitespace (stripping leading and
trailing whitespace leaves a nonempty string iff such a character exists). -/
def stripTruthy (s : String) : Bool := s.data.any (fun c => !c.isWhitespace)

/-- One parsed PDF page: the raw text returned by `page.get_text()` and the
embedded images in `page.get_images(full=True)` order.  The image payload
type is abstract. -/
structure PageData (Img : Type) where
  text : String
  images : List Img

/-- Embedding loop of PDFProcessor._process_page_text: each chunk is embedded
with `embed_text`; a chunk whose embedding raises is logged and skipped, and
the loop continues with the remaining chunks.  On success the embedding is
appended and the chunk becomes a Document with metadata
`{"page": page_num, "type": "text"}`. -/
def embedChunks (embed_text : String → Option Vec) (page_num : Nat) :
    List String → List Document × List Vec
  | [] => ([], [])
  | c :: rest =>
    let r := embedChunks embed_text page_num rest
    match embed_text c with
    | some e => (⟨c, ⟨page_num, "text", none⟩⟩ :: r.1, e :: r.2)
    | none => r

/-- PDFProcessor._process_page_text: when the stripped page text is nonempty,
split it into chunks (the splitter is abstract, passed as `split`) and embed
each chunk; otherwise the page contributes nothing. -/
def process_page_text (split : String → List String) (embed_text : String → Option Vec)
    (page_text : String) (page_num : Nat) : List Document × List Vec :=
  if stripTruthy page_text then embedChunks embed_text page_num (split page_text)
  else ([], [])

/-- Identifier scheme of `_process_page_images`: "page_{page_num}_img_{img_index}". -/
def image_id_of (page_num img_index : Nat) : String :=
  "page_" ++ toString page_num ++ "_img_" ++ toString img_index

/-- Loop of PDFProcessor._process_page_images over the enumerated images of a
page, starting at index `i`.  `decode` models extraction, RGB conversion and
resizing (a failure there skips the image before anything is stored);
`encode` models the base64 encoding of the re-encoded PNG.  The store entry
is written before the embedding call, so when `embed_image` fails the entry
stays in the page store while the document and embedding are dropped; the
loop then continues with the remaining images. -/
def processImages {Img PImg : Type} (decode : Img → Option PImg) (encode : PImg → String)
    (embed_image : PImg → Option Vec) (page_num : Nat) :
    Nat → List Img → List Document × List Vec × List (String × String)
  | _, [] => ([], [], [])
  | i, img :: rest =>
    let r := processImages decode encode embed_image page_num (i + 1) rest
    match decode img with
    | none => r
    | some p =>
      match embed_image p with
      | none => (r.1, r.2.1, (image_id_of page_num i, encode p) :: r.2.2)
      | some e =>
        (⟨"[Image: " ++ image_id_of page_num i ++ "]",
            ⟨page_num, "image", some (image_id_of page_num i)⟩⟩ :: r.1,
         e :: r.2.1,
         (image_id_of page_num i, encode p) :: r.2.2)

/-- PDFProcessor._process_page_images applied to a whole page. -/
def process_page_images {Img PImg : Type} (decode : Img → Option PImg)
    (encode : PImg → String) (embed_image : PImg → Option Vec) (page_num : Nat)
    (images : List Img) : List Document × List Vec × List (String × String) :=
  processImages decode encode embed_image page_num 0 images

/-- Result of PDFProcessor.process_pdf: the parallel document and embedding
lists and the image data store (a dict in the source; modelled as the
association list of its insertions, whose keys are unique because every
`image_id` embeds its page and image index). -/
structure PdfResult where
  docs : List Document
  embeddings : List Vec
  image_data_store : List (String × String)
deriving Repr, DecidableEq

/-- Page loop of PDFProcessor.process_pdf starting at page index `i`: per
page the text units are appended first, then the image units, and the page
image store is merged into the global store; then the loop continues with
the remaining pages. -/
def processPages {Img PImg : Type} (split : String → List String)
    (embed_text : String → Option Vec) (decode : Img → Option PImg)
    (encode : PImg → String) (embed_image : PImg → Option Vec) :
    Nat → List (PageData Img) → PdfResult
  | _, [] => ⟨[], [], []⟩
  | i, pg :: rest =>
    let t := process_page_text split embed_text pg.text i
    let im := process_page_images decode encode embed_image i pg.images
    let r := processPages split embed_text decode encode embed_image (i + 1) rest
    ⟨t.1 ++ im.1 ++ r.docs, t.2 ++ im.2.1 ++ r.embeddings, im.2.2 ++ r.image_data_store⟩

/-- PDFProcessor.process_pdf: open the document (`openDoc` models
`pymupdf.open`; a failure there is printed and re-raised to the caller),
then process the pages in increasing index order. -/
def process_pdf {D Img PImg : Type} (openDoc : D → Except String (List (PageData Img)))
    (split : String → List String) (embed_text : String → Option Vec)
    (decode : Img → Option PImg) (encode : PImg → String)
    (embed_image : PImg → Option Vec) (input : D) : Except String PdfResult :=
  match openDoc input with
  | Except.error e => Except.error e
  | Except.ok pages => Except.ok (processPages split embed_text decode encode embed_image 0 pages)

/-- Candidate unit of the ingestion output, before any embedding attempt: a
text chunk of a page whose stripped text is nonempty, or a page image that
decoded successfully.  Used to state the failure policy: the pipeline keeps
exactly the candidates whose embedding succeeds. -/
inductive CandidateUnit (PImg : Type) where
  | textU (page_num : Nat) (chunk : String)
  | imageU (page_num : Nat) (img_index : Nat) (decoded : PImg)

/-- Image candidates of one page: the decodable images, enumerated from `i`. -/
def imageCandidates {Img PImg : Type} (decode : Img → Option PImg) (page_num : Nat) :
    Nat → List Img → List (CandidateUnit PImg)
  | _, [] => []
  | i, img :: rest =>
    let r := imageCandidates decode page_num (i + 1) rest
    match decode img with
    | none => r
    | some p => CandidateUnit.imageU page_num i p :: r

/-- Text candidates of one page: its chunks, when the stripped page text is
nonempty. -/
def textCandidates {PImg : Type} (split : String → List String) (page_num : Nat)
    (s : String) : List (CandidateUnit PImg) :=
  if stripTruthy s then (split s).map (CandidateUnit.textU page_num) else []

/-- All candidate units of a page list in output order: for each page, the
chunks of its nonempty text, then its decodable images. -/
def allCandidates {Img PImg : Type} (split : String → List String)
    (decode : Img → Option PImg) : Nat → List (PageData Img) → List (CandidateUnit PImg)
  | _, [] => []
  | i, pg :: rest =>
    textCandidates split i pg.text ++
      imageCandidates decode i 0 pg.images ++
      allCandidates split decode (i + 1) rest

/-- Page index a candidate unit belongs to. -/
def CandidateUnit.pageOf {PImg : Type} : CandidateUnit PImg → Nat
  | CandidateUnit.textU i _ => i
  | CandidateUnit.imageU i _ _ => i

/-- Whether embedding a candidate unit succeeds. -/
def unitEmbeds {PImg : Type} (embed_text : String → Option Vec)
    (embed_image : PImg → Option Vec) : CandidateUnit PImg → Bool
  | CandidateUnit.textU _ c => (embed_text c).isSome
  | CandidateUnit.imageU _ _ p => (embed_image p).isSome

/-- The embedding a candidate unit receives when its provider call succeeds. -/
def unitEmbedding {PImg : Type} (embed_text : String → Option Vec)
    (embed_image : PImg → Option Vec) : CandidateUnit PImg → Option Vec
  | CandidateUnit.textU _ c => embed_text c
  | CandidateUnit.imageU _ _ p => embed_image p

/-- The Document a kept candidate unit becomes in the output. -/
def unitDoc {PImg : Type} : CandidateUnit PImg → Document
  | CandidateUnit.textU i c => ⟨c, ⟨i, "text", none⟩⟩
  | CandidateUnit.imageU i j _ =>
    ⟨"[Image: " ++ image_id_of i j ++ "]", ⟨i, "image", some (image_id_of i j)⟩⟩

/-- The image store entry a candidate unit contributes: image candidates are
stored (keyed by their identifier, valued by the re-encoded payload) as soon
as they decode, text candidates contribute nothing. -/
def unitStoreEntry {PImg : Type} (encode : PImg → String) :
    CandidateUnit PImg → Option (String × String)
  | CandidateUnit.textU _ _ => none
  | CandidateUnit.imageU i j p => some (image_id_of i j, encode p)

/-- Ordering the specification requires of the ingestion output: page indices
never decrease, and on one page no image unit comes before a text unit. -/
def pageOrdered (a b : Document) : Prop :=
  a.metadata.page < b.metadata.page ∨
    (a.metadata.page = b.metadata.page ∧
      (a.metadata.type = "image" → b.metadata.type = "image"))

/-- Blocks of the multimodal prompt sent to the answer generator: the two
shapes of dict appended to `content` by ResponseGenerator. -/
inductive ContentBlock where
  | textBlock (s : String)
  | imageUrl (url : String)
deriving Repr, DecidableEq

/-- Whether a content block is an image block. -/
def isImageBlock : ContentBlock → Bool
  | ContentBlock.imageUrl _ => true
  | ContentBlock.textBlock _ => false

/-- Python dict lookup `image_data_store[image_id]` on the association-list
model of the store. -/
def lookupStore (store : List (String × String)) (key : String) : Option String :=
  (store.find? (fun p => p.1 == key)).map Prod.snd

/-- The guard `if image_id and image_id in image_data_store`: the identifier
must be present (`metadata.get` found the key), truthy (nonempty string) and
a key of the image data store. -/
def imageIncluded (store : List (String × String)) (m : Option String) : Bool :=
  match m with
  | none => false
  | some iid => (iid != "") && (lookupStore store iid).isSome

/-- Blocks contributed by one retrieved image document in
create_text_query_message: a page label and the image payload when the guard
passes, nothing otherwise. -/
def imageBlocksFor (store : List (String × String)) (d : Document) : List ContentBlock :=
  match d.metadata.image_id with
  | none => []
  | some iid =>
    if iid != "" then
      match lookupStore store iid with
      | some payload =>
        [ContentBlock.textBlock ("\n[Image from page " ++ toString (d.metadata.page + 1) ++ "]:\n"),
         ContentBlock.imageUrl ("data:image/png;base64," ++ payload)]
      | none => []
    else []

/-- Text context block shared by both message builders: the page-labelled
text excerpts joined with blank lines. -/
def textContext (text_docs : List Document) : String :=
  String.intercalate "\n\n"
    (text_docs.map (fun d => "[Page " ++ toString (d.metadata.page + 1) ++ "]: " ++ d.page_content))

/-- ResponseGenerator.create_text_query_message: the question, the text
excerpts of the retrieved text documents, the retrieved images whose
identifier passes the store guard, and the closing instruction. -/
def create_text_query_message (query : String) (retrieved_docs : List Document)
    (image_data_store : List (String × String)) : List ContentBlock :=
  [ContentBlock.textBlock ("Question: " ++ query ++ "\n\nContext:\n")] ++
    (let text_docs := retrieved_docs.filter (fun d => d.metadata.type == "text")
     if text_docs.isEmpty then []
     else [ContentBlock.textBlock ("Text excerpts:\n" ++ textContext text_docs ++ "\n")]) ++
    ((retrieved_docs.filter (fun d => d.metadata.type == "image")).flatMap
      (imageBlocksFor image_data_store)) ++
    [ContentBlock.textBlock "\n\nPlease answer the question based on the provided text and images."]

/-- Blocks contributed by one retrieved image document in
create_image_query_message (the page label has no leading line break). -/
def relatedImageBlocksFor (store : List (String × String)) (d : Document) : List ContentBlock :=
  match d.metadata.image_id with
  | none => []
  | some iid =>
    if iid != "" then
      match lookupStore store iid with
      | some payload =>
        [ContentBlock.textBlock ("[Image from page " ++ toString (d.metadata.page + 1) ++ "]:\n"),
         ContentBlock.imageUrl ("data:image/png;base64," ++ payload)]
      | none => []
    else []

/-- ResponseGenerator.create_image_query_message: the instruction, the input
query image itself (always one image block), the related text excerpts, the
retrieved images whose identifier passes the store guard, and the closing
instruction.  `input_image_b64` is the base64 PNG encoding of the query
image. -/
def create_image_query_message (input_image_b64 : String) (retrieved_docs : List Document)
    (image_data_store : List (String × String)) : List ContentBlock :=
  [ContentBlock.textBlock "I have provided you with an input image and relevant content from a PDF document. Please analyze the input image and provide information based on the related content found in the PDF.\n\nInput Image:",
   ContentBlock.imageUrl ("data:image/png;base64," ++ input_image_b64),
   ContentBlock.textBlock "\n\nRelated content from PDF:\n"] ++
    (let text_docs := retrieved_docs.filter (fun d => d.metadata.type == "text")
     if text_docs.isEmpty then []
     else [ContentBlock.textBlock ("Text content:\n" ++ textContext text_docs ++ "\n")]) ++
    (let image_docs := retrieved_docs.filter (fun d => d.metadata.type == "image")
     if image_docs.isEmpty then []
     else
       [ContentBlock.textBlock "\nRelated images from PDF:\n"] ++
         image_docs.flatMap (relatedImageBlocksFor image_data_store)) ++
    [ContentBlock.textBlock "\n\nBased on the input image and the related content from the PDF, please provide a comprehensive answer about what the input image shows and how it relates to the information in the PDF document."]

/-- Concrete two-document store used as a witness input: both embeddings are
one-dimensional unit-norm vectors. -/
def sampleStore : Store :=
  [(⟨"A", ⟨0, "text", none⟩⟩, [1]), (⟨"B", ⟨0, "text", none⟩⟩, [-1])]

/-! Helper lemmas. -/

theorem withIdx_length {α : Type} (i : Nat) (l : List α) :
    (withIdx i l).length = l.length := by
  induction l generalizing i with
  | nil => rfl
  | cons a l ih => simp [withIdx, ih]

theorem withIdx_map_snd {α : Type} (i : Nat) (l : List α) :
    (withIdx i l).map (fun e => e.2) = l := by
  induction l generalizing i with
  | nil => rfl
  | cons a l ih => simp [withIdx, ih]

theorem withIdx_mem_snd {α : Type} : ∀ {i : Nat} {l : List α} {e : Nat × α},
    e ∈ withIdx i l → e.2 ∈ l := by
  intro i l
  induction l generalizing i with
  | nil => intro e h; simp [withIdx] at h
  | cons a l ih =>
    intro e h
    simp only [withIdx, List.mem_cons] at h
    rcases h with h | h
    · simp [h]
    · exact List.mem_cons_of_mem a (ih h)

theorem withIdx_fst_ge {α : Type} : ∀ {i : Nat} {l : List α} {e : Nat × α},
    e ∈ withIdx i l → i ≤ e.1 := by
  intro i l
  induction l generalizing i with
  | nil => intro e h; simp [withIdx] at h
  | cons a l ih =>
    intro e h
    simp only [withIdx, List.mem_cons] at h
    rcases h with h | h
    · simp [h]
    · exact Nat.le_of_succ_le (ih h)

theorem withIdx_pairwise_fst_lt {α : Type} (i : Nat) (l : List α) :
    (withIdx i l).Pairwise (fun a b => a.1 < b.1) := by
  induction l generalizing i with
  | nil => simp [withIdx]
  | cons a l ih =>
    simp only [withIdx, List.pairwise_cons]
    exact ⟨fun b hb => Nat.lt_of_lt_of_le (Nat.lt_succ_self i) (withIdx_fst_ge hb), ih (i + 1)⟩

theorem rankedEntries_length (st : Store) (q : Vec) :
    (rankedEntries st q).length = st.length := by
  unfold rankedEntries
  rw [List.length_mergeSort, withIdx_length]

theorem dot_cons (a b : ℚ) (u v : Vec) : dot (a :: u) (b :: v) = a * b + dot u v := by
  simp [dot]

theorem sqDist_cons (a b : ℚ) (u v : Vec) :
    sqDist (a :: u) (b :: v) = (a - b) ^ 2 + sqDist u v := by
  simp [sqDist]

theorem sqDist_eq_dot (u v : Vec) (h : u.length = v.length) :
    sqDist u v = dot u u + dot v v - 2 * dot u v := by
  induction u generalizing v with
  | nil =>
    cases v with
    | nil => simp [sqDist, dot]
    | cons b v => simp at h
  | cons a u ih =>
    cases v with
    | nil => simp at h
    | cons b v =>
      have hl : u.length = v.length := by simpa using h
      rw [sqDist_cons, dot_cons, dot_cons, dot_cons, ih v hl]
      ring

theorem entryLE_trans (q : Vec) : ∀ (a b c : Nat × Document × Vec),
    entryLE q a b = true → entryLE q b c = true → entryLE q a c = true := by
  intro a b c h1 h2
  simp only [entryLE, Bool.or_eq_true, Bool.and_eq_true, decide_eq_true_eq] at *
  rcases h1 with h1 | ⟨h1e, h1i⟩ <;> rcases h2 with h2 | ⟨h2e, h2i⟩
  · exact Or.inl (lt_trans h1 h2)
  · exact Or.inl (by rw [← h2e]; exact h1)
  · exact Or.inl (by rw [h1e]; exact h2)
  · exact Or.inr ⟨h1e.trans h2e, le_trans h1i h2i⟩

theorem entryLE_total (q : Vec) : ∀ (a b : Nat × Document × Vec),
    (entryLE q a b || entryLE q b a) = true := by
  intro a b
  simp only [entryLE, Bool.or_eq_true, Bool.and_eq_true, decide_eq_true_eq]
  rcases lt_trichotomy (sqDist q a.2.2) (sqDist q b.2.2) with h | h | h
  · exact Or.inl (Or.inl h)
  · rcases Nat.le_total a.1 b.1 with hi | hi
    · exact Or.inl (Or.inr ⟨h, hi⟩)
    · exact Or.inr (Or.inr ⟨h.symm, hi⟩)
  · exact Or.inr (Or.inl h)

theorem embedChunks_char (embed_text : String → Option Vec) (page_num : Nat)
    (cs : List String) :
    (embedChunks embed_text page_num cs).1 =
      ((cs.filter (fun c => (embed_text c).isSome)).map
        (fun c => (⟨c, ⟨page_num, "text", none⟩⟩ : Document))) ∧
    (embedChunks embed_text page_num cs).2 = cs.filterMap embed_text := by
  induction cs with
  | nil => exact ⟨rfl, rfl⟩
  | cons c cs ih =>
    simp only [embedChunks, List.filter_cons, List.filterMap_cons]
    cases h : embed_text c with
    | none => simpa [h] using ih
    | some e => simp [h, ih.1, ih.2]

theorem processImages_char {Img PImg : Type} (decode : Img → Option PImg)
    (encode : PImg → String) (embed_text : String → Option Vec)
    (embed_image : PImg → Option Vec) (page_num : Nat) :
    ∀ (i : Nat) (imgs : List Img),
      (processImages decode encode embed_image page_num i imgs).1 =
        ((imageCandidates decode page_num i imgs).filter
          (unitEmbeds embed_text embed_image)).map unitDoc ∧
      (processImages decode encode embed_image page_num i imgs).2.1 =
        (imageCandidates decode page_num i imgs).filterMap
          (unitEmbedding embed_text embed_image) ∧
      (processImages decode encode embed_image page_num i imgs).2.2 =
        (imageCandidates decode page_num i imgs).filterMap (unitStoreEntry encode) := by
  intro i imgs
  induction imgs generalizing i with
  | nil => exact ⟨rfl, rfl, rfl⟩
  | cons img imgs ih =>
    obtain ⟨ih1, ih2, ih3⟩ := ih (i + 1)
    simp only [processImages, imageCandidates]
    cases hdec : decode img with
    | none => exact ⟨ih1, ih2, ih3⟩
    | some p =>
      cases he : embed_image p with
      | none =>
        simp [List.filter_cons, List.filterMap_cons, unitEmbeds, unitDoc,
          unitEmbedding, unitStoreEntry, he, ih1, ih2, ih3]
      | some e =>
        simp [List.filter_cons, List.filterMap_cons, unitEmbeds, unitDoc,
          unitEmbedding, unitStoreEntry, he, ih1, ih2, ih3]

theorem textCandidates_store {PImg : Type} (split : String → List String)
    (encode : PImg → String) (page_num : Nat) (s : String) :
    (@textCandidates PImg split page_num s).filterMap (unitStoreEntry encode)
      = [] := by
  rw [List.filterMap_eq_nil_iff]
  intro u hu
  unfold textCandidates at hu
  by_cases h : stripTruthy s = true
  · rw [if_pos h] at hu
    obtain ⟨c, -, rfl⟩ := List.mem_map.1 hu
    rfl
  · rw [if_neg h] at hu
    simp at hu

theorem process_page_text_char {PImg : Type} (split : String → List String)
    (embed_text : String → Option Vec) (embed_image : PImg → Option Vec)
    (s : String) (page_num : Nat) :
    (process_page_text split embed_text s page_num).1 =
      ((@textCandidates PImg split page_num s).filter
        (unitEmbeds embed_text embed_image)).map unitDoc ∧
    (process_page_text split embed_text s page_num).2 =
      (@textCandidates PImg split page_num s).filterMap
        (unitEmbedding embed_text embed_image) := by
  unfold process_page_text textCandidates
  by_cases h : stripTruthy s = true
  · rw [if_pos h, if_pos h]
    obtain ⟨h1, h2⟩ := embedChunks_char embed_text page_num (split s)
    refine ⟨?_, ?_⟩
    · rw [h1, List.filter_map, List.map_map]
      rfl
    · rw [h2, List.filterMap_map]
      rfl
  · rw [if_neg h, if_neg h]
    exact ⟨rfl, rfl⟩

/-- Full characterization of the page loop: the output documents are exactly
the candidate units whose embedding succeeds (in order), the embeddings are
their successful embedding results, and the image data store holds exactly
one entry per decoded image candidate, whether or not its embedding
succeeded. -/
theorem processPages_char {Img PImg : Type} (split : String → List String)
    (embed_text : String → Option Vec) (decode : Img → Option PImg)
    (encode : PImg → String) (embed_image : PImg → Option Vec) :
    ∀ (i : Nat) (pages : List (PageData Img)),
      (processPages split embed_text decode encode embed_image i pages).docs =
        ((allCandidates split decode i pages).filter
          (unitEmbeds embed_text embed_image)).map unitDoc ∧
      (processPages split embed_text decode encode embed_image i pages).embeddings =
        (allCandidates split decode i pages).filterMap
          (unitEmbedding embed_text embed_image) ∧
      (processPages split embed_text decode encode embed_image i pages).image_data_store =
        (allCandidates split decode i pages).filterMap (unitStoreEntry encode) := by
  intro i pages
  induction pages generalizing i with
  | nil => exact ⟨rfl, rfl, rfl⟩
  | cons pg rest ih =>
    obtain ⟨ih1, ih2, ih3⟩ := ih (i + 1)
    obtain ⟨ht1, ht2⟩ :=
      @process_page_text_char PImg split embed_text embed_image pg.text i
    obtain ⟨hi1, hi2, hi3⟩ :=
      processImages_char decode encode embed_text embed_image i 0 pg.images
    refine ⟨?_, ?_, ?_⟩
    · show (process_page_text split embed_text pg.text i).1 ++
        (process_page_images decode encode embed_image i pg.images).1 ++ _ = _
      rw [allCandidates]
      simp only [List.filter_append, List.map_append]
      rw [ht1, ih1]
      unfold process_page_images
      rw [hi1, List.append_assoc]
    · show (process_page_text split embed_text pg.text i).2 ++
        (process_page_images decode encode embed_image i pg.images).2.1 ++ _ = _
      rw [allCandidates]
      simp only [List.filterMap_append]
      rw [ht2, ih2]
      unfold process_page_images
      rw [hi2, List.append_assoc]
    · show (process_page_images decode encode embed_image i pg.images).2.2 ++ _ = _
      rw [allCandidates]
      simp only [List.filterMap_append]
      rw [textCandidates_store split encode i pg.text, ih3]
      unfold process_page_images
      rw [hi3]
      simp

theorem imageCandidates_mem {Img PImg : Type} {decode : Img → Option PImg}
    {page_num : Nat} : ∀ {i : Nat} {imgs : List Img} {u : CandidateUnit PImg},
    u ∈ imageCandidates decode page_num i imgs →
    u.pageOf = page_num ∧ (unitDoc u).metadata.page = page_num ∧
      (unitDoc u).metadata.type = "image" := by
  intro i imgs
  induction imgs generalizing i with
  | nil => intro u hu; simp [imageCandidates] at hu
  | cons img imgs ih =>
    intro u hu
    simp only [imageCandidates] at hu
    cases hdec : decode img with
    | none => rw [hdec] at hu; exact ih hu
    | some p =>
      rw [hdec] at hu
      rcases List.mem_cons.1 hu with h | h
      · subst h; exact ⟨rfl, rfl, rfl⟩
      · exact ih h

theorem textCandidates_mem {PImg : Type} {split : String → List String}
    {page_num : Nat} {s : String} {u : CandidateUnit PImg}
    (hu : u ∈ @textCandidates PImg split page_num s) :
    u.pageOf = page_num ∧ (unitDoc u).metadata.page = page_num ∧
      (unitDoc u).metadata.type = "text" := by
  unfold textCandidates at hu
  by_cases h : stripTruthy s = true
  · rw [if_pos h] at hu
    obtain ⟨c, -, rfl⟩ := List.mem_map.1 hu
    exact ⟨rfl, rfl, rfl⟩
  · rw [if_neg h] at hu
    simp at hu

theorem allCandidates_page_ge {Img PImg : Type} {split : String → List String}
    {decode : Img → Option PImg} : ∀ {i : Nat} {pages : List (PageData Img)}
    {u : CandidateUnit PImg}, u ∈ allCandidates split decode i pages → i ≤ u.pageOf := by
  intro i pages
  induction pages generalizing i with
  | nil => intro u hu; simp [allCandidates] at hu
  | cons pg rest ih =>
    intro u hu
    simp only [allCandidates, List.append_assoc, List.mem_append] at hu
    rcases hu with h | h | h
    · exact le_of_eq (textCandidates_mem h).1.symm
    · exact le_of_eq (imageCandidates_mem h).1.symm
    · exact Nat.le_of_succ_le (ih h)

theorem unitDoc_page_eq_pageOf {PImg : Type} (u : CandidateUnit PImg) :
    (unitDoc u).metadata.page = u.pageOf := by
  cases u <;> rfl

/-- Candidate units are produced in the order the specification requires of
the output: pages in increasing order, text before images within a page. -/
theorem allCandidates_ordered {Img PImg : Type} (split : String → List String)
    (decode : Img → Option PImg) :
    ∀ (i : Nat) (pages : List (PageData Img)),
      (allCandidates split decode i pages).Pairwise
        (fun u v => pageOrdered (unitDoc u) (unitDoc v)) := by
  intro i pages
  induction pages generalizing i with
  | nil => simp [allCandidates]
  | cons pg rest ih =>
    rw [allCandidates, List.append_assoc, List.pairwise_append]
    refine ⟨?_, ?_, ?_⟩
    · refine List.pairwise_of_forall_mem_list ?_
      intro a ha b hb
      obtain ⟨-, hpa, hta⟩ := textCandidates_mem ha
      obtain ⟨-, hpb, -⟩ := textCandidates_mem hb
      exact Or.inr ⟨hpa.trans hpb.symm, fun h => absurd (hta.symm.trans h) (by decide)⟩
    · rw [List.pairwise_append]
      refine ⟨?_, ih (i + 1), ?_⟩
      · refine List.pairwise_of_forall_mem_list ?_
        intro a ha b hb
        obtain ⟨-, hpa, -⟩ := imageCandidates_mem ha
        obtain ⟨-, hpb, htb⟩ := imageCandidates_mem hb
        exact Or.inr ⟨hpa.trans hpb.symm, fun _ => htb⟩
      · intro a ha b hb
        obtain ⟨-, hpa, -⟩ := imageCandidates_mem ha
        refine Or.inl ?_
        rw [hpa, unitDoc_page_eq_pageOf]
        exact Nat.lt_of_succ_le (allCandidates_page_ge hb)
    · intro a ha b hb
      obtain ⟨-, hpa, hta⟩ := textCandidates_mem ha
      rcases List.mem_append.1 hb with h | h
      · obtain ⟨-, hpb, -⟩ := imageCandidates_mem h
        exact Or.inr ⟨hpa.trans hpb.symm, fun h => absurd (hta.symm.trans h) (by decide)⟩
      · refine Or.inl ?_
        rw [hpa, unitDoc_page_eq_pageOf]
        exact Nat.lt_of_succ_le (allCandidates_page_ge h)

theorem unitEmbeds_eq_isSome {PImg : Type} (embed_text : String → Option Vec)
    (embed_image : PImg → Option Vec) (u : CandidateUnit PImg) :
    unitEmbeds embed_text embed_image u = (unitEmbedding embed_text embed_image u).isSome := by
  cases u <;> rfl

theorem length_filterMap_eq_length_filter {α β : Type} (f : α → Option β) (l : List α) :
    (l.filterMap f).length = (l.filter (fun a => (f a).isSome)).length := by
  induction l with
  | nil => rfl
  | cons a l ih =>
    rw [List.filterMap_cons, List.filter_cons]
    cases h : f a with
    | none => simpa [h] using ih
    | some b => simpa [h] using ih

theorem imageBlocksFor_count (store : List (String × String)) (d : Document) :
    ((imageBlocksFor store d).filter isImageBlock).length =
      (if imageIncluded store d.metadata.image_id then 1 else 0) := by
  unfold imageBlocksFor imageIncluded
  cases hm : d.metadata.image_id with
  | none => rfl
  | some iid =>
    by_cases h0 : (iid != "") = true
    · cases hl : lookupStore store iid with
      | none => simp [h0, hl, isImageBlock]
      | some payload => simp [h0, hl, isImageBlock]
    · simp [h0]

theorem relatedImageBlocksFor_count (store : List (String × String)) (d : Document) :
    ((relatedImageBlocksFor store d).filter isImageBlock).length =
      (if imageIncluded store d.metadata.image_id then 1 else 0) := by
  unfold relatedImageBlocksFor imageIncluded
  cases hm : d.metadata.image_id with
  | none => rfl
  | some iid =>
    by_cases h0 : (iid != "") = true
    · cases hl : lookupStore store iid with
      | none => simp [h0, hl, isImageBlock]
      | some payload => simp [h0, hl, isImageBlock]
    · simp [h0]

theorem flatMap_imageBlocks_count (store : List (String × String))
    (blocksFor : List (String × String) → Document → List ContentBlock)
    (hcount : ∀ d, ((blocksFor store d).filter isImageBlock).length =
      (if imageIncluded store d.metadata.image_id then 1 else 0)) :
    ∀ ds : List Document,
      ((ds.flatMap (blocksFor store)).filter isImageBlock).length =
        (ds.filter (fun d => imageIncluded store d.metadata.image_id)).length := by
  intro ds
  induction ds with
  | nil => rfl
  | cons d ds ih =>
    rw [List.flatMap_cons, List.filter_append, List.length_append, ih, hcount d,
      List.filter_cons]
    by_cases h : imageIncluded store d.metadata.image_id = true
    · rw [if_pos h, if_pos h]
      simp [Nat.add_comm]
    · rw [if_neg h, if_neg h]
      simp

/-! Claim theorems. -/

/-- C1: with a built index of n stored pairs whose embeddings all have the
dimensionality of the query and unit norm, a search with k ≥ n succeeds
(no error for large k) and returns all n stored documents, each exactly
once, ranked by descending cosine similarity to the query — equivalently
descending inner product, the query norm being fixed — with ties broken by
the smaller insertion id. -/
theorem C1_search_all_items_sorted (st : Store) (q : Vec) (k : Nat)
    (hne : st ≠ []) (hk : st.length ≤ k)
    (hdim : ∀ p ∈ st, (p.2 : Vec).length = q.length)
    (hnorm : ∀ p ∈ st, dot p.2 p.2 = 1) :
    search_by_vector (some st) q (some k) =
      Except.ok ((rankedEntries st q).map (fun e => e.2.1)) ∧
    ((rankedEntries st q).map (fun e => e.2.1)).Perm (st.map Prod.fst) ∧
    (rankedEntries st q).Pairwise (fun a b =>
      dot q b.2.2 < dot q a.2.2 ∨ (dot q a.2.2 = dot q b.2.2 ∧ a.1 < b.1)) := by
  have hlen : (rankedEntries st q).length = st.length := rankedEntries_length st q
  have hk0 : k ≠ 0 := by
    have := List.length_pos.2 hne
    omega
  have hperm : (rankedEntries st q).Perm (withIdx 0 st) := List.mergeSort_perm _ _
  refine ⟨?_, ?_, ?_⟩
  · show Except.ok (similarity_search_by_vector st q (orDefaultK (some k))) = _
    have hor : orDefaultK (some k) = k := by simp [orDefaultK, hk0]
    rw [hor]
    unfold similarity_search_by_vector
    rw [List.take_of_length_le (by omega)]
  · have h2 : ((rankedEntries st q).map (fun e => e.2)).Perm st := by
      have h := hperm.map (fun e => e.2)
      rwa [withIdx_map_snd] at h
    have h3 : ((rankedEntries st q).map (fun e => e.2.1)) =
        (((rankedEntries st q).map (fun e => e.2)).map Prod.fst) :=
      (List.map_map Prod.fst (fun e : Nat × Document × Vec => e.2)
        (rankedEntries st q)).symm
    rw [h3]
    exact h2.map Prod.fst
  · have hsorted : (rankedEntries st q).Pairwise (fun a b => entryLE q a b = true) :=
      List.sorted_mergeSort (entryLE_trans q) (entryLE_total q) (withIdx 0 st)
    have hfstne : (rankedEntries st q).Pairwise (fun a b => a.1 ≠ b.1) := by
      have hne2 : (withIdx 0 st).Pairwise
          (fun a b : Nat × Document × Vec => a.1 ≠ b.1) :=
        (withIdx_pairwise_fst_lt 0 st).imp (fun h => Nat.ne_of_lt h)
      exact (hperm.pairwise_iff (fun h => Ne.symm h)).2 hne2
    have hmem : ∀ e ∈ rankedEntries st q, e.2 ∈ st := fun e he =>
      withIdx_mem_snd (List.mem_mergeSort.1 he)
    refine List.Pairwise.imp_of_mem ?_ (hsorted.and hfstne)
    intro a b ha hb hab
    obtain ⟨hle, hne'⟩ := hab
    have hsa : sqDist q a.2.2 = dot q q + 1 - 2 * dot q a.2.2 := by
      rw [sqDist_eq_dot q a.2.2 (hdim _ (hmem a ha)).symm, hnorm _ (hmem a ha)]
    have hsb : sqDist q b.2.2 = dot q q + 1 - 2 * dot q b.2.2 := by
      rw [sqDist_eq_dot q b.2.2 (hdim _ (hmem b hb)).symm, hnorm _ (hmem b hb)]
    simp only [entryLE, Bool.or_eq_true, Bool.and_eq_true, decide_eq_true_eq] at hle
    rcases hle with h | ⟨he, hi⟩
    · rw [hsa, hsb] at h
      exact Or.inl (by linarith)
    · rw [hsa, hsb] at he
      exact Or.inr ⟨by linarith, Nat.lt_of_le_of_ne hi hne'⟩

/-- Witness for C1 on the concrete two-element store with k = 2. -/
theorem C1_witness :
    sampleStore ≠ [] ∧ sampleStore.length ≤ 2 ∧
    (∀ p ∈ sampleStore, (p.2 : Vec).length = ([1] : Vec).length) ∧
    (∀ p ∈ sampleStore, dot p.2 p.2 = 1) ∧
    (search_by_vector (some sampleStore) [1] (some 2) =
        Except.ok ((rankedEntries sampleStore [1]).map (fun e => e.2.1)) ∧
      ((rankedEntries sampleStore [1]).map (fun e => e.2.1)).Perm
        (sampleStore.map Prod.fst) ∧
      (rankedEntries sampleStore [1]).Pairwise (fun a b =>
        dot [1] b.2.2 < dot [1] a.2.2 ∨
          (dot [1] a.2.2 = dot [1] b.2.2 ∧ a.1 < b.1))) :=
  ⟨by decide, by decide, by decide, by norm_num [sampleStore, dot],
    C1_search_all_items_sorted sampleStore [1] 2 (by decide) (by decide)
      (by decide) (by norm_num [sampleStore, dot])⟩

/-- C2: for every pair of inputs, build fails with ValueError exactly when an
input is empty or the lengths differ, and on failure the previously built
index (the manager state) is left unchanged; on success the new store
replaces it. -/
theorem C2_build_validation (vs : Option Store) (docs : List Document)
    (embeddings : List Vec) :
    (create_vector_store vs docs embeddings).2.isOk =
      (!docs.isEmpty && !embeddings.isEmpty && docs.length == embeddings.length) ∧
    (create_vector_store vs docs embeddings).1 =
      (if !docs.isEmpty && !embeddings.isEmpty && docs.length == embeddings.length
       then some (fromEmbeddings docs embeddings) else vs) := by
  unfold create_vector_store
  by_cases h1 : docs.isEmpty
  · simp [h1, Except.isOk, Except.toBool]
  · by_cases h2 : embeddings.isEmpty
    · simp [h1, h2, Except.isOk, Except.toBool]
    · by_cases h3 : docs.length = embeddings.length
      · simp [h1, h2, h3, Except.isOk, Except.toBool]
      · simp [h1, h2, h3, Except.isOk, Except.toBool]

/-- C3: searching when no index has been built (the manager state is `none`)
fails with the not-initialized ValueError, and so does save. -/
theorem C3_search_save_before_build (q : Vec) (k : Option Nat) :
    search_by_vector none q k = Except.error "Vector store not initialized" ∧
    save_vector_store none = Except.error "Vector store not initialized" :=
  ⟨rfl, rfl⟩

/-- C7: retrieve_multimodal with a query type other than "text" or "image"
fails with the unsupported-query-type ValueError, with an empty call log:
neither the embedding provider nor the vector store is consulted. -/
theorem C7_invalid_query_type {Q : Type} (embed_text embed_image : Q → Vec)
    (vector_store : Option Store) (query : Q) (query_type : String) (k : Option Nat)
    (h1 : query_type ≠ "text") (h2 : query_type ≠ "image") :
    retrieve_multimodal embed_text embed_image vector_store query query_type k =
      (Except.error ("Unsupported query type: " ++ query_type), []) := by
  simp [retrieve_multimodal, h1, h2]

/-- Witness for C7 at the concrete query type "audio". -/
theorem C7_witness :
    ("audio" : String) ≠ "text" ∧ ("audio" : String) ≠ "image" ∧
    retrieve_multimodal (fun _ : Unit => ([] : Vec)) (fun _ => ([] : Vec))
        none () "audio" none =
      (Except.error ("Unsupported query type: " ++ "audio"), []) :=
  ⟨by decide, by decide,
    C7_invalid_query_type _ _ none () "audio" none (by decide) (by decide)⟩

/-- C8 counterexample: a persisted file holding 2-dimensional embeddings
loads successfully even though the configured provider produces
512-dimensional vectors, so load does not reject dimensionality mismatches. -/
theorem C8_counterexample :
    (load_vector_store none
        (Except.ok ⟨[(⟨"A", ⟨0, "text", none⟩⟩, [1, 0])]⟩)).2 =
      Except.ok [(⟨"A", ⟨0, "text", none⟩⟩, [1, 0])] ∧
    (([1, 0] : Vec).length == CLIP_EMBED_DIM) = false :=
  ⟨rfl, by decide⟩

/-- C8 amended: load performs no dimensionality validation at all; any
readable file is restored as is (whatever its embedding dimensionality), and
only a loader failure is propagated, leaving the manager state unchanged. -/
theorem C8_amended_load_no_dim_check (vs : Option Store) (f : PersistedFile)
    (e : String) :
    load_vector_store vs (Except.ok f) = (some f.pairs, Except.ok f.pairs) ∧
    load_vector_store vs (Except.error e) = (vs, Except.error e) :=
  ⟨rfl, rfl⟩

/-- C4: a successful ingestion returns parallel document and embedding lists
of equal length, with pages in increasing index order and, within each page,
every text chunk before every image unit. -/
theorem C4_ingestion_ordering {D Img PImg : Type}
    (openDoc : D → Except String (List (PageData Img)))
    (split : String → List String) (embed_text : String → Option Vec)
    (decode : Img → Option PImg) (encode : PImg → String)
    (embed_image : PImg → Option Vec) (input : D) (r : PdfResult)
    (h : process_pdf openDoc split embed_text decode encode embed_image input =
      Except.ok r) :
    r.docs.length = r.embeddings.length ∧ r.docs.Pairwise pageOrdered := by
  unfold process_pdf at h
  cases ho : openDoc input with
  | error e => rw [ho] at h; exact absurd h (by simp)
  | ok pages =>
    rw [ho] at h
    obtain rfl : processPages split embed_text decode encode embed_image 0 pages = r := by
      simpa using h
    obtain ⟨h1, h2, -⟩ :=
      processPages_char split embed_text decode encode embed_image 0 pages
    constructor
    · rw [h1, h2, List.length_map, length_filterMap_eq_length_filter]
      congr 1
      apply List.filter_congr
      intro u _
      exact unitEmbeds_eq_isSome embed_text embed_image u
    · rw [h1, List.pairwise_map]
      exact List.Pairwise.sublist (List.filter_sublist _)
        (allCandidates_ordered split decode 0 pages)

/-- Witness for C4 at a concrete one-page document with one text chunk and
one image, all embeddings succeeding. -/
theorem C4_witness :
    (⟨[⟨"hi", ⟨0, "text", none⟩⟩,
        ⟨"[Image: page_0_img_0]", ⟨0, "image", some "page_0_img_0"⟩⟩],
      [[1], [1]], [("page_0_img_0", "P")]⟩ : PdfResult).docs.length =
      (⟨[⟨"hi", ⟨0, "text", none⟩⟩,
          ⟨"[Image: page_0_img_0]", ⟨0, "image", some "page_0_img_0"⟩⟩],
        [[1], [1]], [("page_0_img_0", "P")]⟩ : PdfResult).embeddings.length ∧
    (⟨[⟨"hi", ⟨0, "text", none⟩⟩,
        ⟨"[Image: page_0_img_0]", ⟨0, "image", some "page_0_img_0"⟩⟩],
      [[1], [1]], [("page_0_img_0", "P")]⟩ : PdfResult).docs.Pairwise pageOrdered :=
  C4_ingestion_ordering (fun _ : Unit => Except.ok [⟨"hi", [0]⟩]) (fun s => [s])
    (fun _ => some [1]) (fun n : Nat => some n) (fun _ => "P") (fun _ => some [1])
    () _ rfl

/-- C5 counterexample: a document with one image that decodes (and is
stored) but whose embedding fails yields an image data store with one entry
while the output holds no Image ContentUnit at all, so the store does not
contain exactly one entry per output Image unit. -/
theorem C5_counterexample :
    (processPages (fun s => [s]) (fun _ => (none : Option Vec)) (fun n : Nat => some n)
        (fun _ => "payload") (fun _ => (none : Option Vec)) 0
        [⟨"", [0]⟩]).image_data_store.length = 1 ∧
    ((processPages (fun s => [s]) (fun _ => (none : Option Vec)) (fun n : Nat => some n)
        (fun _ => "payload") (fun _ => (none : Option Vec)) 0
        [⟨"", [0]⟩]).docs.filter (fun d => d.metadata.type == "image")).length = 0 :=
  ⟨rfl, rfl⟩

/-- C5 amended: after ingestion the image data store holds exactly one entry
per successfully decoded and re-encoded image — including images whose
embedding subsequently failed, whose entries remain although no ContentUnit
references them — and every Image ContentUnit of the output has its image_id
among the store keys. -/
theorem C5_image_store_amended {Img PImg : Type} (split : String → List String)
    (embed_text : String → Option Vec) (decode : Img → Option PImg)
    (encode : PImg → String) (embed_image : PImg → Option Vec)
    (pages : List (PageData Img)) :
    (processPages split embed_text decode encode embed_image 0 pages).image_data_store =
      (allCandidates split decode 0 pages).filterMap (unitStoreEntry encode) ∧
    ((processPages split embed_text decode encode embed_image 0 pages).docs.filter
        (fun d => d.metadata.type == "image")).all
      (fun d =>
        match d.metadata.image_id with
        | some iid =>
          ((processPages split embed_text decode encode embed_image 0
              pages).image_data_store.map Prod.fst).contains iid
        | none => false) = true := by
  obtain ⟨h1, -, h3⟩ :=
    processPages_char split embed_text decode encode embed_image 0 pages
  refine ⟨h3, ?_⟩
  rw [List.all_eq_true]
  intro d hd
  rcases List.mem_filter.1 hd with ⟨hd1, hd2⟩
  rw [h1] at hd1
  obtain ⟨u, hu, rfl⟩ := List.mem_map.1 hd1
  have hu' := List.mem_of_mem_filter hu
  cases u with
  | textU i c => simp [unitDoc] at hd2
  | imageU i j p =>
    rw [h3]
    show (((allCandidates split decode 0 pages).filterMap
        (unitStoreEntry encode)).map Prod.fst).contains (image_id_of i j) = true
    exact List.elem_eq_true_of_mem
      (List.mem_map_of_mem Prod.fst
        (List.mem_filterMap.2 ⟨CandidateUnit.imageU i j p, hu', rfl⟩))

/-- C6: a failure opening or parsing the document itself propagates to the
caller of ingest, while per-unit embedding failures only drop the failing
unit: the output documents are exactly the candidate units (text chunks and
decodable images, over all pages) whose embedding succeeded, paired with
their embeddings — ingestion of all remaining units and pages continues. -/
theorem C6_failure_policy {D Img PImg : Type} (e : String) (input : D)
    (split : String → List String) (embed_text : String → Option Vec)
    (decode : Img → Option PImg) (encode : PImg → String)
    (embed_image : PImg → Option Vec) (pages : List (PageData Img)) :
    process_pdf (fun _ : D => Except.error e) split embed_text decode encode
      embed_image input = Except.error e ∧
    (processPages split embed_text decode encode embed_image 0 pages).docs =
      ((allCandidates split decode 0 pages).filter
        (unitEmbeds embed_text embed_image)).map unitDoc ∧
    (processPages split embed_text decode encode embed_image 0 pages).embeddings =
      (allCandidates split decode 0 pages).filterMap
        (unitEmbedding embed_text embed_image) := by
  obtain ⟨h1, h2, -⟩ :=
    processPages_char split embed_text decode encode embed_image 0 pages
  exact ⟨rfl, h1, h2⟩

/-- C9 counterexample: a retrieved Image unit whose image_id is the empty
string — which is a key of the image data store — contributes no image block
to the composed prompt, because the Python truthiness guard skips a falsy
identifier before the membership test; so the prompt does not contain an
image block for every retrieved Image unit whose image_id is a store key. -/
theorem C9_counterexample :
    ((create_text_query_message "q" [⟨"[Image: ]", ⟨0, "image", some ""⟩⟩]
        [("", "P")]).filter isImageBlock).length = 0 ∧
    (⟨"[Image: ]", ⟨0, "image", some ""⟩⟩ : Document).metadata.type = "image" ∧
    (lookupStore [("", "P")] "").isSome = true :=
  ⟨rfl, rfl, rfl⟩

/-- C9 amended: the composed prompt contains an image block for exactly
those retrieved Image units whose image_id is truthy (present and nonempty)
and a key of the ImageStore; other Image units are silently omitted and
prompt construction never fails (both builders are total).  For an image
query the prompt additionally always contains one image block for the query
image itself. -/
theorem C9_image_blocks_amended (query input_image_b64 : String)
    (retrieved_docs : List Document) (image_data_store : List (String × String)) :
    ((create_text_query_message query retrieved_docs image_data_store).filter
        isImageBlock).length =
      (retrieved_docs.filter (fun d => d.metadata.type == "image" &&
        imageIncluded image_data_store d.metadata.image_id)).length ∧
    ((create_image_query_message input_image_b64 retrieved_docs
        image_data_store).filter isImageBlock).length =
      1 + (retrieved_docs.filter (fun d => d.metadata.type == "image" &&
        imageIncluded image_data_store d.metadata.image_id)).length := by
  have hkey :
      (retrieved_docs.filter (fun d => d.metadata.type == "image")).filter
          (fun d => imageIncluded image_data_store d.metadata.image_id) =
        retrieved_docs.filter (fun d => d.metadata.type == "image" &&
          imageIncluded image_data_store d.metadata.image_id) := by
    rw [List.filter_filter]
    apply List.filter_congr
    intro d _
    rw [Bool.and_comm]
  constructor
  · unfold create_text_query_message
    simp only [List.filter_append, List.length_append]
    rw [flatMap_imageBlocks_count image_data_store imageBlocksFor
      (imageBlocksFor_count image_data_store), hkey]
    by_cases h :
        (retrieved_docs.filter (fun d => d.metadata.type == "text")).isEmpty = true
    · simp [h, isImageBlock]
    · simp [h, isImageBlock]
  · unfold create_image_query_message
    simp only [List.filter_append, List.length_append]
    by_cases hi :
        (retrieved_docs.filter (fun d => d.metadata.type == "image")).isEmpty = true
    · have hnil : retrieved_docs.filter (fun d => d.metadata.type == "image") = [] :=
        List.isEmpty_iff.1 hi
      have hz : retrieved_docs.filter (fun d => d.metadata.type == "image" &&
          imageIncluded image_data_store d.metadata.image_id) = [] := by
        rw [← hkey, hnil]
        rfl
      by_cases ht :
          (retrieved_docs.filter (fun d => d.metadata.type == "text")).isEmpty = true
      · simp [hi, ht, hz, isImageBlock]
      · simp [hi, ht, hz, isImageBlock]
    · rw [if_neg hi]
      rw [List.filter_append, List.length_append]
      rw [flatMap_imageBlocks_count image_data_store relatedImageBlocksFor
        (relatedImageBlocksFor_count image_data_store), hkey]
      by_cases ht :
          (retrieved_docs.filter (fun d => d.metadata.type == "text")).isEmpty = true
      · simp [ht, isImageBlock, Nat.add_comm]
      · simp [ht, isImageBlock, Nat.add_comm]

/-- C10: passing k = 0 to search or to the retrieve operations behaves
exactly like leaving k unspecified, and yields DEFAULT_K results clamped to
the indexed count, because 0 is falsy in the Python defaulting. -/
theorem C10_zero_k_defaults {Q : Type} (embed_text embed_image : Q → Vec)
    (vector_store : Option Store) (st : Store) (q : Vec) (query : Q) :
    search_by_vector (some st) q (some 0) = search_by_vector (some st) q none ∧
    retrieve_by_text embed_text vector_store query (some 0) =
      retrieve_by_text embed_text vector_store query none ∧
    retrieve_by_image embed_image vector_store query (some 0) =
      retrieve_by_image embed_image vector_store query none ∧
    (similarity_search_by_vector st q (orDefaultK (some 0))).length =
      min DEFAULT_K st.length := by
  refine ⟨rfl, rfl, rfl, ?_⟩
  unfold similarity_search_by_vector
  rw [List.length_map, List.length_take, rankedEntries_length]
  rfl

end MultimodalRag
